import Mathlib

/-!
Verification of the foodie-lab recipe pipeline: a shallow embedding of the
Row Mapper (export_etl.js and the unnamed variant), the Validation Engine
(validate_rule.js) and the Analytics Engine (analysis.js), together with
proofs about the behaviors the specification describes.

Modelling conventions: a JS number is a rational; NaN is modelled by the
none case of Option; a CSV field read by csv-parser is an Option String
(none models an absent property, i.e. undefined).
-/

namespace Foodie

/-! ## JS Number coercion on strings -/

/-- Whitespace trimming on a character list: drop leading and trailing
whitespace. Models JS String.prototype.trim (and the trimming Number(...)
performs); defined structurally so that concrete values reduce. -/
def trimChars (cs : List Char) : List Char :=
  ((cs.dropWhile Char.isWhitespace).reverse.dropWhile Char.isWhitespace).reverse

/-- Whitespace trimming on strings, via trimChars. -/
def jsTrim (s : String) : String := String.mk (trimChars s.toList)

/-- Lower-casing on strings, character by character; models JS
String.prototype.toLowerCase on the ASCII values this pipeline compares. -/
def jsToLower (s : String) : String := String.mk (s.toList.map Char.toLower)

/-- Numeric value of a decimal digit character. -/
def digitVal (c : Char) : ℕ := c.toNat - 48

/-- Value of a list of decimal digit characters, most significant first. -/
def digitsToNat (cs : List Char) : ℕ := cs.foldl (fun a c => 10 * a + digitVal c) 0

/-- Exponent suffix of a JS numeric literal: an optional sign followed by at
least one digit, consuming the whole remainder. -/
def parseExp : List Char → Option ℤ
  | [] => none
  | '+' :: cs =>
      if !cs.isEmpty && cs.all Char.isDigit then some (digitsToNat cs : ℤ) else none
  | '-' :: cs =>
      if !cs.isEmpty && cs.all Char.isDigit then some (-(digitsToNat cs : ℤ)) else none
  | cs =>
      if !cs.isEmpty && cs.all Char.isDigit then some (digitsToNat cs : ℤ) else none

/-- Mantissa of a JS numeric literal: digits with an optional fractional part,
at least one digit overall. Returns the mantissa digits read as a natural
number, the number of fractional digits, and the unconsumed remainder. -/
def parseMantissa (cs : List Char) : Option ((ℕ × ℕ) × List Char) :=
  let ip := cs.takeWhile Char.isDigit
  let rest := cs.dropWhile Char.isDigit
  match rest with
  | '.' :: rest2 =>
      let fp := rest2.takeWhile Char.isDigit
      let rest3 := rest2.dropWhile Char.isDigit
      if ip.isEmpty && fp.isEmpty then none
      else some ((digitsToNat (ip ++ fp), fp.length), rest3)
  | _ => if ip.isEmpty then none else some ((digitsToNat ip, 0), rest)

/-- Exact rational value of a decimal scientific representation:
sign, mantissa digits and decimal exponent. -/
def sciVal (sgn : Bool) (dv : ℕ) (e : ℤ) : ℚ :=
  if 0 ≤ e then
    let mag : ℤ := ((dv * 10 ^ e.toNat : ℕ) : ℤ)
    mkRat (if sgn then -mag else mag) 1
  else
    mkRat (if sgn then -(dv : ℤ) else (dv : ℤ)) (10 ^ (-e).toNat)

/-- Unsigned JS numeric literal: mantissa with an optional exponent part;
returns mantissa digits and the final decimal exponent. -/
def parseAfterSign (cs : List Char) : Option (ℕ × ℤ) :=
  match parseMantissa cs with
  | none => none
  | some ((dv, fl), rest) =>
    match rest with
    | [] => some (dv, -(fl : ℤ))
    | 'e' :: cs2 => (parseExp cs2).map (fun k => (dv, k - (fl : ℤ)))
    | 'E' :: cs2 => (parseExp cs2).map (fun k => (dv, k - (fl : ℤ)))
    | _ => none

/-- Model of the JS Number(...) coercion on a string; none models NaN.
Whitespace is trimmed and the empty or all-whitespace string coerces to 0,
as in JS. Decimal literals with optional sign, fraction and exponent are
covered; hexadecimal, binary, octal and Infinity literal forms are not
modelled (no rule of this pipeline distinguishes them, and every concrete
value exercised below is decimal). -/
def jsNumber (s : String) : Option ℚ :=
  let t := jsTrim s
  if t = "" then some 0
  else
    match t.toList with
    | '+' :: cs => (parseAfterSign cs).map (fun p => sciVal false p.1 p.2)
    | '-' :: cs => (parseAfterSign cs).map (fun p => sciVal true p.1 p.2)
    | cs => (parseAfterSign cs).map (fun p => sciVal false p.1 p.2)

end Foodie

namespace Foodie

/-! ## CSV field helpers (validate_rule.js) -/

/-- Coalescing VAL ?? "" on a csv field; for string-valued fields the code
also uses VAL || "", which agrees because the only falsy string is empty. -/
def orEmpty (o : Option String) : String := o.getD ""

/-- Template interpolation of a csv field: an absent field prints as the
word undefined, as in a JS template literal. -/
def echo (o : Option String) : String := o.getD "undefined"

/-- Emptiness test the validator applies to id, name and text fields:
!VAL or trimmed VAL empty, which for strings is exactly trimmed-empty. -/
def blank (s : String) : Bool := jsTrim s == ""

/-- Field parse used as VAL === "" ? NaN : Number(VAL); none models NaN.
An absent field coerces to NaN; the empty string is explicitly mapped to
NaN by the guard, although Number("") would be 0. -/
def parseField : Option String → Option ℚ
  | none => none
  | some s => if s == "" then none else jsNumber s

/-- Predicate isNumberString from validate_rule.js: false on the empty
string, null or undefined, otherwise true exactly when Number(s) is not
NaN. -/
def isNumberString : Option String → Bool
  | none => false
  | some s => if s == "" then false else (jsNumber s).isSome

/-! ## Validation messages

Each constructor stands for one distinct format string pushed by
validate_rule.js; the raw argument is the interpolated offending value.
The recipe_id format string is shared verbatim by the recipes,
ingredients, steps and interactions validators, hence a single
constructor. -/

inductive Msg where
  | recipeIdMissing
  | nameMissing
  | servingsInvalid (raw : String)
  | prepNegative (raw : String)
  | cookNegative (raw : String)
  | difficultyMissing
  | invalidDifficulty (raw : String)
  | ingredientNameMissing
  | quantityInvalid (raw : String)
  | stepTextMissing
  | orderInvalid (raw : String)
  | interactionIdMissing
  | userIdMissing
  | invalidOrMissingType (raw : String)
  | ratingNotNumeric (raw : String)
  | ratingOutOfRange (raw : String)
deriving DecidableEq, Repr

/-- Message kind: the format string of a message, with the interpolated
value forgotten. -/
inductive MsgKind where
  | recipeIdMissing
  | nameMissing
  | servingsInvalid
  | prepNegative
  | cookNegative
  | difficultyMissing
  | invalidDifficulty
  | ingredientNameMissing
  | quantityInvalid
  | stepTextMissing
  | orderInvalid
  | interactionIdMissing
  | userIdMissing
  | invalidOrMissingType
  | ratingNotNumeric
  | ratingOutOfRange
deriving DecidableEq, Repr

/-- Kind of a message. -/
def Msg.kind : Msg → MsgKind
  | .recipeIdMissing => .recipeIdMissing
  | .nameMissing => .nameMissing
  | .servingsInvalid _ => .servingsInvalid
  | .prepNegative _ => .prepNegative
  | .cookNegative _ => .cookNegative
  | .difficultyMissing => .difficultyMissing
  | .invalidDifficulty _ => .invalidDifficulty
  | .ingredientNameMissing => .ingredientNameMissing
  | .quantityInvalid _ => .quantityInvalid
  | .stepTextMissing => .stepTextMissing
  | .orderInvalid _ => .orderInvalid
  | .interactionIdMissing => .interactionIdMissing
  | .userIdMissing => .userIdMissing
  | .invalidOrMissingType _ => .invalidOrMissingType
  | .ratingNotNumeric _ => .ratingNotNumeric
  | .ratingOutOfRange _ => .ratingOutOfRange

/-! ## Row types (as read back from the csv files by csv-parser) -/

structure RecipeRow where
  recipe_id : Option String
  name : Option String
  servings : Option String
  prep_time_min : Option String
  cook_time_min : Option String
  difficulty : Option String
deriving DecidableEq, Repr

structure IngredientRow where
  recipe_id : Option String
  ingredient_id : Option String
  name : Option String
  quantity : Option String
deriving DecidableEq, Repr

structure StepRow where
  recipe_id : Option String
  step_id : Option String
  text : Option String
  order : Option String
deriving DecidableEq, Repr

structure InteractionRow where
  interaction_id : Option String
  user_id : Option String
  recipe_id : Option String
  type : Option String
  rating : Option String
deriving DecidableEq, Repr

/-! ## Per-row rule sets (validate_rule.js main) -/

def validDifficulties : List String := ["easy", "medium", "hard"]

def validInteractionTypes : List String := ["view", "like", "cook_attempt", "rating"]

/-- Messages pushed for one recipe row, in program order
(validate_rule.js lines 72-88). -/
def recipeRowMsgs (row : RecipeRow) : List Msg :=
  (if blank (orEmpty row.recipe_id) then [Msg.recipeIdMissing] else []) ++
  (if blank (orEmpty row.name) then [Msg.nameMissing] else []) ++
  (match parseField row.servings with
   | none => [Msg.servingsInvalid (echo row.servings)]
   | some q => if q < 1 then [Msg.servingsInvalid (echo row.servings)] else []) ++
  (match parseField row.prep_time_min with
   | none => []
   | some q => if q < 0 then [Msg.prepNegative (echo row.prep_time_min)] else []) ++
  (match parseField row.cook_time_min with
   | none => []
   | some q => if q < 0 then [Msg.cookNegative (echo row.cook_time_min)] else []) ++
  (let diff := jsToLower (jsTrim (orEmpty row.difficulty))
   if diff == "" then [Msg.difficultyMissing]
   else if validDifficulties.contains diff then []
   else [Msg.invalidDifficulty (echo row.difficulty)])

/-- Messages pushed for one ingredient row (validate_rule.js lines 91-101). -/
def ingredientRowMsgs (row : IngredientRow) : List Msg :=
  (if blank (orEmpty row.recipe_id) then [Msg.recipeIdMissing] else []) ++
  (if blank (orEmpty row.name) then [Msg.ingredientNameMissing] else []) ++
  (match row.quantity with
   | none => []
   | some s =>
     if s == "" then []
     else
       match jsNumber s with
       | none => [Msg.quantityInvalid s]
       | some v => if v < 0 then [Msg.quantityInvalid s] else [])

/-- Messages pushed for one step row (validate_rule.js lines 104-111). -/
def stepRowMsgs (row : StepRow) : List Msg :=
  (if blank (orEmpty row.recipe_id) then [Msg.recipeIdMissing] else []) ++
  (if blank (orEmpty row.text) then [Msg.stepTextMissing] else []) ++
  (match parseField row.order with
   | none => [Msg.orderInvalid (echo row.order)]
   | some q =>
     if q < 1 ∨ q.isInt = false then [Msg.orderInvalid (echo row.order)] else [])

/-- Messages pushed for one interaction row (validate_rule.js lines 114-134). -/
def interactionRowMsgs (row : InteractionRow) : List Msg :=
  (if blank (orEmpty row.interaction_id) then [Msg.interactionIdMissing] else []) ++
  (if blank (orEmpty row.user_id) then [Msg.userIdMissing] else []) ++
  (if blank (orEmpty row.recipe_id) then [Msg.recipeIdMissing] else []) ++
  (let ty := jsToLower (jsTrim (orEmpty row.type))
   if ty == "" then [Msg.invalidOrMissingType (echo row.type)]
   else if validInteractionTypes.contains ty then []
   else [Msg.invalidOrMissingType (echo row.type)]) ++
  (match row.rating with
   | none => []
   | some s =>
     if s == "" then []
     else
       match jsNumber s with
       | none => [Msg.ratingNotNumeric s]
       | some r => if r < 0 ∨ 5 < r then [Msg.ratingOutOfRange s] else [])

end Foodie

namespace Foodie

/-! ## Findings and tallies (validate_rule.js main, lines 52-69 and 136-203) -/

inductive Table where
  | recipes
  | ingredients
  | steps
  | interactions
deriving DecidableEq, Repr

/-- One atomic finding, as pushed by pushError: table name, zero-based row
index, best-effort row id, message. -/
structure Finding where
  table : Table
  rowIndex : ℕ
  id : String
  msg : Msg
deriving DecidableEq, Repr

/-- Findings of a whole table: rows visited in order with a running index,
each row contributing its messages tagged with the table, its index and
its best-effort id. -/
def tableFindings {α : Type} (t : Table) (rowId : α → String) (rowMsgs : α → List Msg) :
    ℕ → List α → List Finding
  | _, [] => []
  | i, r :: rs =>
      (rowMsgs r).map (fun m => Finding.mk t i (rowId r) m) ++
      tableFindings t rowId rowMsgs (i + 1) rs

/-- The four input tables of one validation run. -/
structure Tables where
  recipes : List RecipeRow
  ingredients : List IngredientRow
  steps : List StepRow
  interactions : List InteractionRow

/-- The flat error list of the run, in program order. -/
def allFindings (tb : Tables) : List Finding :=
  tableFindings Table.recipes (fun r => orEmpty r.recipe_id) recipeRowMsgs 0 tb.recipes ++
  tableFindings Table.ingredients (fun r => orEmpty r.ingredient_id) ingredientRowMsgs 0 tb.ingredients ++
  tableFindings Table.steps (fun r => orEmpty r.step_id) stepRowMsgs 0 tb.steps ++
  tableFindings Table.interactions (fun r => orEmpty r.interaction_id) interactionRowMsgs 0 tb.interactions

/-- Keys of the perRowErrors map: the distinct (table, row index) pairs
that received at least one finding. The JS map is keyed by the string
TABLE::IDX, which determines the pair uniquely because the four table
names contain no colon; only the key multiset matters below, never the
key order. -/
def perRowKeys (tb : Tables) : List (Table × ℕ) :=
  ((allFindings tb).map (fun f => (f.table, f.rowIndex))).dedup

/-- Total row count of one table. -/
def totals (tb : Tables) : Table → ℕ
  | .recipes => tb.recipes.length
  | .ingredients => tb.ingredients.length
  | .steps => tb.steps.length
  | .interactions => tb.interactions.length

/-- invalidRowCounts of validate_rule.js lines 160-165: per-table number
of perRowErrors keys. -/
def invalidRowCount (tb : Tables) (t : Table) : ℕ :=
  ((perRowKeys tb).filter (fun k => k.1 = t)).length

/-- valid_count of one table, as computed on line 171:
Math.max(0, total − invalid), over the integers. -/
def validCount (tb : Tables) (t : Table) : ℤ :=
  max 0 ((totals tb t : ℤ) - (invalidRowCount tb t : ℤ))

/-- Global invalid_count of the report (line 201): the number of
perRowErrors keys. -/
def invalidCount (tb : Tables) : ℕ := (perRowKeys tb).length

/-- The set of distinct row indices of one table that received at least
one finding: the quantity the spec relates to valid_count. -/
def findingRows (tb : Tables) (t : Table) : Finset ℕ :=
  (((allFindings tb).filter (fun f => f.table = t)).map Finding.rowIndex).toFinset

end Foodie

namespace Foodie

/-! ## JS values in a source document (export_etl.js Row Mapper) -/

/-- Shallow model of a JS value stored in a recipe document. A native date
carries its validity, millisecond time value, ISO string and String(...)
view; the Firestore timestamp object carries the ISO string its toDate
conversion produces (none when the conversion throws) and its String(...)
view; a plain object carries its String(...) view; an array carries its
elements as strings (the seeded tags are string arrays). -/
inductive JsVal where
  | undef
  | jnull
  | num (q : ℚ)
  | nan
  | str (s : String)
  | jbool (b : Bool)
  | date (valid : Bool) (ms : ℤ) (iso : String) (asString : String)
  | tsObj (conv : Option String) (asString : String)
  | arr (elems : List String)
  | obj (asString : String)
deriving DecidableEq, Repr

/-- Truthiness of a JS value; objects, arrays and dates are always truthy. -/
def truthy : JsVal → Bool
  | .undef => false
  | .jnull => false
  | .num q => !(q == 0)
  | .nan => false
  | .str s => !(s == "")
  | .jbool b => b
  | .date _ _ _ _ => true
  | .tsObj _ _ => true
  | .arr _ => true
  | .obj _ => true

/-- The JS test VAL != null: false exactly on undefined and null. -/
def isPresent : JsVal → Bool
  | .undef => false
  | .jnull => false
  | _ => true

/-- Smallest k ≤ 30 with d dividing 10 ^ k, when one exists. -/
def pow10Exp (d : ℕ) : Option ℕ :=
  (List.range 31).find? (fun k => decide (d ∣ 10 ^ k))

/-- Decimal rendering of a rational, as JS prints a number with a
terminating decimal expansion (integers plainly, fractions with a point
and no trailing zeros). A rational without a short terminating expansion
falls back to a num/den form: JS float formatting is not modelled there,
and no mapped value below needs it. -/
def decStr (q : ℚ) : String :=
  if q.den = 1 then toString q.num
  else
    match pow10Exp q.den with
    | none => toString q.num ++ "/" ++ toString q.den
    | some k =>
      let a := (q.num.natAbs * ((10 ^ k) / q.den))
      let ip := a / 10 ^ k
      let fp := a % 10 ^ k
      let fpStr := toString fp
      let pad := String.mk (List.replicate (k - fpStr.length) '0')
      (if q.num < 0 then "-" else "") ++ toString ip ++ "." ++ pad ++ fpStr

/-- String(...) conversion of a JS value. -/
def stringify : JsVal → String
  | .undef => "undefined"
  | .jnull => "null"
  | .num q => decStr q
  | .nan => "NaN"
  | .str s => s
  | .jbool b => if b then "true" else "false"
  | .date _ _ _ s => s
  | .tsObj _ s => s
  | .arr es => String.intercalate "," es
  | .obj s => s

/-- Number(...) coercion of a JS value; none models NaN. A native date
coerces to its millisecond time value (NaN when invalid); the timestamp
object, arrays and plain objects coerce through their string view. -/
def toNumber : JsVal → Option ℚ
  | .undef => none
  | .jnull => some 0
  | .num q => some q
  | .nan => none
  | .str s => jsNumber s
  | .jbool b => some (if b then 1 else 0)
  | .date valid ms _ _ => if valid then some ms else none
  | .tsObj _ s => jsNumber s
  | .arr es => jsNumber (String.intercalate "," es)
  | .obj s => jsNumber s

/-- Timestamp normalization toISO of export_etl.js lines 29-38: a falsy
input yields the empty string; an object exposing toDate yields the ISO
string of the converted date; a native date yields its toISOString, which
throws for an invalid date and is then caught; any other input, or a
failed conversion, yields String(ts). -/
def toISO : JsVal → String
  | .undef => ""
  | .jnull => ""
  | .nan => ""
  | .num q => if q == 0 then "" else decStr q
  | .str s => s
  | .jbool b => if b then "true" else ""
  | .date valid _ iso s => if valid then iso else s
  | .tsObj (some iso) _ => iso
  | .tsObj none s => s
  | .arr es => String.intercalate "," es
  | .obj s => s

/-- The JS expression VAL || "" on an arbitrary value, viewed through the
csv serialization: the String(...) view of the value when truthy, the
empty string otherwise. -/
def orEmptyVal (v : JsVal) : String := if truthy v then stringify v else ""

/-- One recipe document: its store-assigned identifier and its fields. -/
structure RecipeDoc where
  docId : String
  name : JsVal
  description : JsVal
  servings : JsVal
  prep_time_min : JsVal
  cook_time_min : JsVal
  total_time_min : JsVal
  difficulty : JsVal
  cuisine : JsVal
  tags : JsVal
  author_user_id : JsVal
  created_at : JsVal
deriving Repr

/-- Mapped recipe row of export_etl.js. In the numeric cells, none models
the empty cell that isNaN(x) ? "" : x writes for NaN. -/
structure MappedRecipe where
  recipe_id : String
  name : String
  description : String
  servings : JsVal
  prep_time_min : Option ℚ
  cook_time_min : Option ℚ
  total_time_min : Option ℚ
  difficulty : String
  cuisine : String
  tags : String
  author_user_id : String
  created_at : String
deriving Repr

/-- Addition of JS numbers in the NaN-as-none model: NaN propagates. -/
def optAdd : Option ℚ → Option ℚ → Option ℚ
  | some a, some b => some (a + b)
  | _, _ => none

/-- Tags cell: a stored array joins with commas, a scalar passes through
VAL || "". -/
def mapTags : JsVal → String
  | .arr es => String.intercalate "," es
  | v => orEmptyVal v

/-- Row Mapper for one recipe document, export_etl.js lines 61-81. -/
def exportMapRecipe (d : RecipeDoc) : MappedRecipe :=
  let prep := if isPresent d.prep_time_min then toNumber d.prep_time_min else some 0
  let cook := if isPresent d.cook_time_min then toNumber d.cook_time_min else some 0
  let total := if isPresent d.total_time_min then toNumber d.total_time_min else optAdd prep cook
  { recipe_id := d.docId
    name := orEmptyVal d.name
    description := orEmptyVal d.description
    servings := if isPresent d.servings then d.servings else .str ""
    prep_time_min := prep
    cook_time_min := cook
    total_time_min := total
    difficulty := orEmptyVal d.difficulty
    cuisine := orEmptyVal d.cuisine
    tags := mapTags d.tags
    author_user_id := orEmptyVal d.author_user_id
    created_at := toISO d.created_at }

/-- Numeric cells mapped by the variant exporter src/unnamed/part_000
lines 44-55: prep and cook are Number(VAL) || 0 (always a number), the
total cell is pushed raw, so none here models a NaN cell, not an empty
one. -/
structure PartMappedRecipe where
  prep_time_min : ℚ
  cook_time_min : ℚ
  total_time_min : Option ℚ
deriving Repr

/-- Row Mapper of the variant exporter src/unnamed/part_000 lines 42-62,
restricted to the time cells. -/
def partMapRecipe (d : RecipeDoc) : PartMappedRecipe :=
  let prep := (toNumber d.prep_time_min).getD 0
  let cook := (toNumber d.cook_time_min).getD 0
  { prep_time_min := prep
    cook_time_min := cook
    total_time_min :=
      if isPresent d.total_time_min then toNumber d.total_time_min else some (prep + cook) }

end Foodie

namespace Foodie

/-! ## Analytics Engine (analysis.js) -/

/-- Insert a value into an ascending list, keeping it sorted. -/
def insertAsc (v : ℕ) : List ℕ → List ℕ
  | [] => [v]
  | w :: ws => if v ≤ w then v :: w :: ws else w :: insertAsc v ws

/-- Ascending sort by insertion. The JS numeric comparator sort of
analysis.js line 179 produces the ascending rearrangement of the values;
over totally ordered numbers any two sorted rearrangements of the same
values are equal lists, so this is that result. -/
def sortAsc (l : List ℕ) : List ℕ := l.foldr insertAsc []

/-- Median of the like-count values, analysis.js lines 177-182: 0 for no
values, otherwise the sorted-array midpoint, averaging the two middle
values when the count is even. -/
def medianOf (vals : List ℕ) : ℚ :=
  if vals.isEmpty then 0
  else
    let s := sortAsc vals
    let mid := s.length / 2
    if s.length % 2 = 0 then mkRat ((s.getD (mid - 1) 0 : ℕ) + (s.getD mid 0 : ℕ) : ℤ) 2
    else ((s.getD mid 0 : ℕ) : ℚ)

/-- Bump an insertion-ordered association list at a key: models
OBJ[k] = (OBJ[k] || 0) + 1 on a JS object used as a counter. -/
def bump : List (String × ℕ) → String → List (String × ℕ)
  | [], k => [(k, 1)]
  | (k0, v) :: rest, k =>
      if k0 = k then (k0, v + 1) :: rest else (k0, v) :: bump rest k

/-- Recipe id key used by the interaction aggregation:
it.recipe_id || "UNKNOWN" (analysis.js line 120). -/
def ridKey (row : InteractionRow) : String :=
  if orEmpty row.recipe_id == "" then "UNKNOWN" else orEmpty row.recipe_id

/-- Like test on one interaction row: normalized type equals like. -/
def isLike (row : InteractionRow) : Bool :=
  jsToLower (jsTrim (orEmpty row.type)) == "like"

/-- One step of the likes aggregation loop of analysis.js lines 119-138:
a like row bumps its recipe key, any other row changes nothing. -/
def likeStep (m : List (String × ℕ)) (row : InteractionRow) : List (String × ℕ) :=
  if isLike row then bump m (ridKey row) else m

/-- The likesCount counter of analysis.js lines 114-138: one entry per
recipe that has at least one like interaction, holding its like tally. -/
def likesCount (inters : List InteractionRow) : List (String × ℕ) :=
  inters.foldl likeStep []

/-- Lookup in a counter object with missing keys read as 0:
models M[k] || 0. -/
def lookupCount (m : List (String × ℕ)) (k : String) : ℕ :=
  ((m.find? (fun p => p.1 == k)).map Prod.snd).getD 0

/-- Median like count across the recipes present in likesCount
(analysis.js lines 176-182). -/
def medianLikes (inters : List InteractionRow) : ℚ :=
  medianOf ((likesCount inters).map Prod.snd)

/-- High-engagement recipe ids, analysis.js line 184: the likesCount
entries whose count strictly exceeds the median like count. -/
def highEngRecipeIds (inters : List InteractionRow) : List String :=
  ((likesCount inters).filter (fun p => medianLikes inters < (p.2 : ℚ))).map Prod.fst

/-- Arithmetic mean of a list of rationals; 0 on the empty list
(analysis.js lines 32-35). -/
def qmean (xs : List ℚ) : ℚ := if xs.isEmpty then 0 else xs.sum / xs.length

/-- Numerator sum of the pearson loop: sum of products of deviations. -/
def pearsonNum (xs ys : List ℚ) : ℚ :=
  ((xs.zip ys).map (fun p => (p.1 - qmean xs) * (p.2 - qmean ys))).sum

/-- Denominator sum of the pearson loop for one series: sum of squared
deviations. -/
def pearsonDen (xs : List ℚ) : ℚ :=
  (xs.map (fun v => (v - qmean xs) ^ 2)).sum

/-- Pearson correlation as computed by analysis.js lines 37-52: 0 on an
empty or length-mismatched pair of series, 0 when either sum of squared
deviations is zero, otherwise the deviation product sum over the square
root of the product of the squared-deviation sums. -/
noncomputable def pearson (xs ys : List ℚ) : ℝ :=
  if xs.isEmpty ∨ xs.length ≠ ys.length then 0
  else if pearsonDen xs = 0 ∨ pearsonDen ys = 0 then 0
  else (pearsonNum xs ys : ℝ) / Real.sqrt ((pearsonDen xs : ℝ) * (pearsonDen ys : ℝ))

/-- Population covariance of two series: mean of the deviation products. -/
def popCov (xs ys : List ℚ) : ℚ := pearsonNum xs ys / xs.length

/-- Population variance of a series: mean of the squared deviations. -/
def popVar (xs : List ℚ) : ℚ := pearsonDen xs / xs.length

/-- Population standard deviation of a series. -/
noncomputable def popSd (xs : List ℚ) : ℝ := Real.sqrt ((popVar xs : ℝ))

/-- Pearson correlation stated the way the spec states it: population
covariance over the product of population standard deviations, with 0 on
empty or mismatched series and on zero variance. Written from the words
of the spec, to be compared with the pearson function written from the
code. -/
noncomputable def pearsonSpec (xs ys : List ℚ) : ℝ :=
  if xs.isEmpty ∨ xs.length ≠ ys.length then 0
  else if popVar xs = 0 ∨ popVar ys = 0 then 0
  else (popCov xs ys : ℝ) / (popSd xs * popSd ys)

/-- Recipe row fields the correlation reads. -/
structure ARecipe where
  recipe_id : Option String
  prep_time_min : Option String
deriving Repr

/-- Numeric coercion with zero default: Number(VAL) || 0 on a csv field. -/
def numOr0 (o : Option String) : ℚ := ((o.bind jsNumber).getD 0)

/-- Prep-time series over the recipe rows (analysis.js lines 152-160). -/
def prepVector (recipes : List ARecipe) : List ℚ :=
  recipes.map (fun r => numOr0 r.prep_time_min)

/-- Like-count series over the recipe rows: likesCount[rid] || 0, where an
absent recipe_id indexes the object with the word undefined. -/
def likeVector (recipes : List ARecipe) (inters : List InteractionRow) : List ℚ :=
  recipes.map (fun r => (lookupCount (likesCount inters) (echo r.recipe_id) : ℚ))

/-- Correlation between prep time and like count, analysis.js line 161. -/
noncomputable def prepLikesCorr (recipes : List ARecipe) (inters : List InteractionRow) : ℝ :=
  pearson (prepVector recipes) (likeVector recipes inters)

end Foodie

namespace Foodie

/-! ## Concrete inputs used by the examples below -/

/-- A like interaction for one recipe. -/
def likeRow (r : String) : InteractionRow :=
  { interaction_id := some "i1", user_id := some "u1", recipe_id := some r,
    type := some "like", rating := some "" }

/-- Interactions giving like counts 1, 3, 5, 7 to recipes r1, r2, r3, r4. -/
def demoInters7 : List InteractionRow :=
  List.replicate 1 (likeRow "r1") ++ List.replicate 3 (likeRow "r2") ++
  List.replicate 5 (likeRow "r3") ++ List.replicate 7 (likeRow "r4")

/-- Two recipe rows with prep times 10 and 20. -/
def demoRecipesCorr : List ARecipe :=
  [{ recipe_id := some "r1", prep_time_min := some "10" },
   { recipe_id := some "r2", prep_time_min := some "20" }]

/-- Interactions giving like counts 2 and 4 to recipes r1 and r2. -/
def demoIntersCorr : List InteractionRow :=
  List.replicate 2 (likeRow "r1") ++ List.replicate 4 (likeRow "r2")

/-- A complete step row with a chosen raw order value. -/
def stepWithOrder (o : String) : StepRow :=
  { recipe_id := some "r1", step_id := some "s1", text := some "mix", order := some o }

/-- A recipe row with a negative prep time and a non-numeric cook time. -/
def negTimesRow : RecipeRow :=
  { recipe_id := some "r1", name := some "Dal", servings := some "4",
    prep_time_min := some "-3", cook_time_min := some "abc", difficulty := some "easy" }

/-- A recipe row with an empty difficulty. -/
def noDiffRow : RecipeRow :=
  { recipe_id := some "r1", name := some "Dal", servings := some "4",
    prep_time_min := some "1", cook_time_min := some "2", difficulty := some "" }

/-- A recipe row with an unrecognized difficulty. -/
def badDiffRow : RecipeRow := { noDiffRow with difficulty := some "extreme" }

/-- A complete rating interaction row with a chosen raw rating value. -/
def ratingRow (s : String) : InteractionRow :=
  { interaction_id := some "i1", user_id := some "u1", recipe_id := some "r1",
    type := some "rating", rating := some s }

/-- A recipe document whose fields are all plainly valued. -/
def baseDoc : RecipeDoc :=
  { docId := "r1", name := .str "Dal", description := .str "lentils",
    servings := .num 4, prep_time_min := .num 1, cook_time_min := .num 2,
    total_time_min := .undef, difficulty := .str "easy", cuisine := .str "Indian",
    tags := .arr ["sweet"], author_user_id := .str "u1",
    created_at := .tsObj (some "2024-01-01T00:00:00.000Z") "Timestamp" }

/-- The base document with an explicit non-numeric total_time_min. -/
def badTotalDoc : RecipeDoc := { baseDoc with total_time_min := .str "abc" }

/-- The base document with a non-numeric prep_time_min. -/
def badPrepDoc : RecipeDoc := { baseDoc with prep_time_min := .str "abc" }

end Foodie

namespace Foodie

/-! ## Supporting lemmas -/

/-- Membership in an if-then-else of lists splits on the condition. -/
theorem memIte {α : Type} {c : Prop} [Decidable c] {l1 l2 : List α} {x : α} :
    (x ∈ if c then l1 else l2) ↔ (c ∧ x ∈ l1) ∨ (¬c ∧ x ∈ l2) := by
  split <;> simp_all

/-! ## C9: prep and cook time findings -/

/-- C9. For every recipe row, validation flags prep_time_min, and likewise
cook_time_min, exactly when the field parses as a number and that number is
negative; a non-numeric, empty or absent value in these fields produces no
finding for that field. -/
theorem prep_cook_negative_flag (row : RecipeRow) :
    ((∃ raw, Msg.prepNegative raw ∈ recipeRowMsgs row) ↔
      ∃ q, parseField row.prep_time_min = some q ∧ q < 0)
  ∧ ((∃ raw, Msg.cookNegative raw ∈ recipeRowMsgs row) ↔
      ∃ q, parseField row.cook_time_min = some q ∧ q < 0)
  ∧ (parseField row.prep_time_min = none → ∀ raw, Msg.prepNegative raw ∉ recipeRowMsgs row)
  ∧ (parseField row.cook_time_min = none → ∀ raw, Msg.cookNegative raw ∉ recipeRowMsgs row) := by
  rcases hs : parseField row.servings with _ | qs <;>
    rcases hp : parseField row.prep_time_min with _ | qp <;>
      rcases hc : parseField row.cook_time_min with _ | qc <;>
        simp [recipeRowMsgs, hs, hp, hc, memIte]

/-- Witness for C9 at a concrete row: the non-numeric cook time field draws
no cook finding. -/
theorem prep_cook_negative_flag_witness :
    Msg.cookNegative "abc" ∉ recipeRowMsgs negTimesRow :=
  (prep_cook_negative_flag negTimesRow).2.2.2 (by decide) "abc"

/-! ## C4: the step order rule -/

/-- C4. For every step row, validation flags the order field, with one
single message kind, exactly when order fails to parse as a number, parses
to a non-integer, or parses to an integer below 1; an order parsing to an
integer at least 1 receives no order finding. Concretely, 2.5 and 0 are
flagged and 1 is not. -/
theorem step_order_flag (row : StepRow) :
    ((Msg.orderInvalid (echo row.order) ∈ stepRowMsgs row) ↔
      ¬ ∃ q, parseField row.order = some q ∧ q.isInt = true ∧ 1 ≤ q)
  ∧ (stepRowMsgs row).countP (fun m => m.kind == MsgKind.orderInvalid) ≤ 1
  ∧ Msg.orderInvalid "2.5" ∈ stepRowMsgs (stepWithOrder "2.5")
  ∧ Msg.orderInvalid "0" ∈ stepRowMsgs (stepWithOrder "0")
  ∧ (stepRowMsgs (stepWithOrder "1")).countP (fun m => m.kind == MsgKind.orderInvalid) = 0 := by
  refine ⟨?_, ?_, by decide, by decide, by decide⟩
  · rcases ho : parseField row.order with _ | q
    · simp [stepRowMsgs, ho, memIte]
    · cases hqi : q.isInt <;>
        simp [stepRowMsgs, ho, hqi, memIte, not_and_or, not_le]
  · rcases ho : parseField row.order with _ | q <;>
      simp [stepRowMsgs, ho, List.countP_append, memIte] <;>
      split_ifs <;> simp [List.countP, List.countP.go, Msg.kind] <;> decide

/-- Witness for C4 at a concrete row: an order of 2.5 is not an integer at
least 1, and the general rule flags it. -/
theorem step_order_flag_witness :
    Msg.orderInvalid (echo (stepWithOrder "2.5").order) ∈ stepRowMsgs (stepWithOrder "2.5") :=
  (step_order_flag (stepWithOrder "2.5")).1.mpr (by decide)

/-! ## C3: the two rating message kinds -/

/-- C3. For every interaction row whose rating is present and non-empty,
the non-numeric-rating message is emitted exactly when the rating fails to
parse as a number, the out-of-range message is emitted exactly when it
parses to a number outside the range 0 to 5, and the two are never emitted
together: the range check runs only when the numeric check passed. -/
theorem rating_two_kinds (row : InteractionRow) (s : String)
    (hp : row.rating = some s) (hne : s ≠ "") :
    ((Msg.ratingNotNumeric s ∈ interactionRowMsgs row) ↔ jsNumber s = none)
  ∧ ((Msg.ratingOutOfRange s ∈ interactionRowMsgs row) ↔
      ∃ v, jsNumber s = some v ∧ (v < 0 ∨ 5 < v))
  ∧ ¬(Msg.ratingNotNumeric s ∈ interactionRowMsgs row ∧
      Msg.ratingOutOfRange s ∈ interactionRowMsgs row) := by
  rcases hr : jsNumber s with _ | v <;>
    simp [interactionRowMsgs, hp, hne, hr, memIte]

/-- Witness for C3 at concrete rows: a rating of 7 is numeric but out of
range, a rating of abc is non-numeric, and in both cases the other message
is absent. -/
theorem rating_two_kinds_witness :
    Msg.ratingOutOfRange "7" ∈ interactionRowMsgs (ratingRow "7")
  ∧ Msg.ratingNotNumeric "7" ∉ interactionRowMsgs (ratingRow "7")
  ∧ Msg.ratingNotNumeric "abc" ∈ interactionRowMsgs (ratingRow "abc")
  ∧ Msg.ratingOutOfRange "abc" ∉ interactionRowMsgs (ratingRow "abc") := by
  have h7 := rating_two_kinds (ratingRow "7") "7" rfl (by decide)
  have habc := rating_two_kinds (ratingRow "abc") "abc" rfl (by decide)
  refine ⟨h7.2.1.mpr ⟨7, by decide, Or.inr (by norm_num)⟩, ?_,
    habc.1.mpr (by decide), ?_⟩
  · intro hmem
    exact absurd (h7.1.mp hmem) (by decide)
  · intro hmem
    rcases habc.2.1.mp hmem with ⟨v, hv, _⟩
    rw [show jsNumber "abc" = none from by decide] at hv
    cases hv

/-! ## C10: one type message kind, two difficulty message kinds -/

/-- C10. For every interaction row, a missing or empty type and a type
outside the valid set are reported through one and the same message kind,
and a row receives at most one type finding; the recipe difficulty rule,
in contrast, reports emptiness and invalidity through two distinct message
kinds. -/
theorem type_one_kind_difficulty_two :
    (∀ row : InteractionRow,
      (interactionRowMsgs row).countP (fun m => m.kind == MsgKind.invalidOrMissingType) ≤ 1)
  ∧ (∀ row : InteractionRow,
      ((∃ raw, Msg.invalidOrMissingType raw ∈ interactionRowMsgs row) ↔
        (jsToLower (jsTrim (orEmpty row.type)) = "" ∨
         validInteractionTypes.contains (jsToLower (jsTrim (orEmpty row.type))) = false)))
  ∧ (∀ row : RecipeRow, jsToLower (jsTrim (orEmpty row.difficulty)) = "" →
      Msg.difficultyMissing ∈ recipeRowMsgs row ∧
      ∀ raw, Msg.invalidDifficulty raw ∉ recipeRowMsgs row)
  ∧ (∀ row : RecipeRow, jsToLower (jsTrim (orEmpty row.difficulty)) ≠ "" →
      validDifficulties.contains (jsToLower (jsTrim (orEmpty row.difficulty))) = false →
      Msg.invalidDifficulty (echo row.difficulty) ∈ recipeRowMsgs row ∧
      Msg.difficultyMissing ∉ recipeRowMsgs row)
  ∧ MsgKind.difficultyMissing ≠ MsgKind.invalidDifficulty := by
  refine ⟨?_, ?_, ?_, ?_, by decide⟩
  · intro row
    rcases hr : row.rating with _ | s
    · simp [interactionRowMsgs, hr, List.countP_append, memIte]
      split_ifs <;> simp [List.countP, List.countP.go, Msg.kind] <;> decide
    · rcases hn : jsNumber s with _ | v <;>
        simp [interactionRowMsgs, hr, hn, List.countP_append, memIte] <;>
        split_ifs <;> simp [List.countP, List.countP.go, Msg.kind] <;> decide
  · intro row
    by_cases hA : jsToLower (jsTrim (orEmpty row.type)) = ""
    · rcases hr : row.rating with _ | s
      · simp [interactionRowMsgs, hr, hA, memIte]
      · rcases hn : jsNumber s with _ | v <;> simp [interactionRowMsgs, hr, hn, hA, memIte]
    · rcases hr : row.rating with _ | s
      · simp [interactionRowMsgs, hr, hA, memIte]
      · rcases hn : jsNumber s with _ | v <;> simp [interactionRowMsgs, hr, hn, hA, memIte]
  · intro row hd
    rcases hs : parseField row.servings with _ | qs <;>
      rcases hpr : parseField row.prep_time_min with _ | qp <;>
        rcases hc : parseField row.cook_time_min with _ | qc <;>
          simp [recipeRowMsgs, hs, hpr, hc, hd, memIte]
  · intro row hd hc2
    rcases hs : parseField row.servings with _ | qs <;>
      rcases hpr : parseField row.prep_time_min with _ | qp <;>
        rcases hc : parseField row.cook_time_min with _ | qc <;>
          simp [recipeRowMsgs, hs, hpr, hc, hd, hc2, memIte] <;>
            simpa using hc2

/-- Witness for C10 at concrete rows: an empty difficulty draws the missing
kind, an unrecognized one draws the invalid kind and not the missing one. -/
theorem type_one_kind_difficulty_two_witness :
    Msg.difficultyMissing ∈ recipeRowMsgs noDiffRow
  ∧ Msg.invalidDifficulty (echo badDiffRow.difficulty) ∈ recipeRowMsgs badDiffRow
  ∧ Msg.difficultyMissing ∉ recipeRowMsgs badDiffRow :=
  ⟨(type_one_kind_difficulty_two.2.2.1 noDiffRow (by decide)).1,
   (type_one_kind_difficulty_two.2.2.2.1 badDiffRow (by decide) (by decide)).1,
   (type_one_kind_difficulty_two.2.2.2.1 badDiffRow (by decide) (by decide)).2⟩

/-! ## C1: the mapped total time -/

/-- C1 (amended). The mapped total_time_min cell of export_etl.js equals
Number(source value) whenever the explicit source value is present, i.e.
not null or undefined: in particular the explicit value itself when that
coercion yields a number, but the empty cell, not prep plus cook, when it
does not. Only when the explicit value is absent does the cell equal the
NaN-propagating sum of the mapped prep and cook cells; the variant
exporter in part_000 likewise sums its own always-numeric prep and cook
values when the explicit value is absent. -/
theorem total_time_mapping :
    (∀ d : RecipeDoc, (exportMapRecipe d).total_time_min =
      if isPresent d.total_time_min then toNumber d.total_time_min
      else optAdd (exportMapRecipe d).prep_time_min (exportMapRecipe d).cook_time_min)
  ∧ (∀ d : RecipeDoc, isPresent d.total_time_min = true → toNumber d.total_time_min = none →
      (exportMapRecipe d).total_time_min = none)
  ∧ (∀ d : RecipeDoc, isPresent d.total_time_min = false →
      (partMapRecipe d).total_time_min =
        some ((partMapRecipe d).prep_time_min + (partMapRecipe d).cook_time_min)) := by
  refine ⟨fun d => rfl, fun d h1 h2 => ?_, fun d h => ?_⟩
  · simp [exportMapRecipe, h1, h2]
  · simp [partMapRecipe, h]

/-- Counterexample for C1 as stated: a document with the explicit but
non-numeric total_time_min abc and numeric prep 1 and cook 2 maps to the
empty total cell, not to prep plus cook. -/
theorem total_time_claim_cex :
    (exportMapRecipe badTotalDoc).prep_time_min = some 1
  ∧ (exportMapRecipe badTotalDoc).cook_time_min = some 2
  ∧ (exportMapRecipe badTotalDoc).total_time_min = none
  ∧ ¬(exportMapRecipe badTotalDoc).total_time_min = some (1 + 2) := by
  refine ⟨by decide, by decide, by decide, by decide⟩

/-- Witness for C1 at a concrete document: with the explicit value absent
the mapped total is the sum of the mapped prep and cook cells. -/
theorem total_time_mapping_witness :
    (exportMapRecipe baseDoc).total_time_min =
      optAdd (exportMapRecipe baseDoc).prep_time_min (exportMapRecipe baseDoc).cook_time_min ∧
    (partMapRecipe baseDoc).total_time_min =
      some ((partMapRecipe baseDoc).prep_time_min + (partMapRecipe baseDoc).cook_time_min) := by
  have h1 := total_time_mapping.1 baseDoc
  have h3 := total_time_mapping.2.2 baseDoc (by decide)
  exact ⟨by simpa using h1, h3⟩

/-! ## C5: the mapped prep and cook times -/

/-- C5 (amended). In export_etl.js, the mapped prep_time_min and
cook_time_min cells equal Number(source value) when that coercion yields a
number, and 0 when the source value is missing or null; a present but
non-numeric source value maps to the empty cell, not 0. The variant
exporter in part_000 maps every case of a failed coercion, including a
present non-numeric value, to 0. Both mappers are total functions:
mapping never fails. -/
theorem prep_cook_mapping :
    (∀ (d : RecipeDoc) (q : ℚ), toNumber d.prep_time_min = some q →
      (exportMapRecipe d).prep_time_min = some q)
  ∧ (∀ d : RecipeDoc, isPresent d.prep_time_min = false →
      (exportMapRecipe d).prep_time_min = some 0)
  ∧ (∀ d : RecipeDoc, isPresent d.prep_time_min = true → toNumber d.prep_time_min = none →
      (exportMapRecipe d).prep_time_min = none)
  ∧ (∀ (d : RecipeDoc) (q : ℚ), toNumber d.cook_time_min = some q →
      (exportMapRecipe d).cook_time_min = some q)
  ∧ (∀ d : RecipeDoc, isPresent d.cook_time_min = false →
      (exportMapRecipe d).cook_time_min = some 0)
  ∧ (∀ d : RecipeDoc, isPresent d.cook_time_min = true → toNumber d.cook_time_min = none →
      (exportMapRecipe d).cook_time_min = none)
  ∧ (∀ d : RecipeDoc, (partMapRecipe d).prep_time_min = (toNumber d.prep_time_min).getD 0
      ∧ (partMapRecipe d).cook_time_min = (toNumber d.cook_time_min).getD 0) := by
  refine ⟨fun d q hq => ?_, fun d h => ?_, fun d h1 h2 => ?_,
          fun d q hq => ?_, fun d h => ?_, fun d h1 h2 => ?_, fun d => ⟨rfl, rfl⟩⟩
  · cases hp : d.prep_time_min <;> simp_all [exportMapRecipe, toNumber, isPresent]
  · simp [exportMapRecipe, h]
  · simp [exportMapRecipe, h1, h2]
  · cases hp : d.cook_time_min <;> simp_all [exportMapRecipe, toNumber, isPresent]
  · simp [exportMapRecipe, h]
  · simp [exportMapRecipe, h1, h2]

/-- Counterexample for C5 as stated: a present non-numeric prep_time_min
maps to the empty cell in export_etl.js, not to the claimed default 0. -/
theorem prep_cook_claim_cex :
    (exportMapRecipe badPrepDoc).prep_time_min = none
  ∧ ¬(exportMapRecipe badPrepDoc).prep_time_min = some 0 := by
  refine ⟨by decide, by decide⟩

/-- Witness for C5 at a concrete document: a numeric prep maps to its
value. -/
theorem prep_cook_mapping_witness :
    (exportMapRecipe baseDoc).prep_time_min = some 1 :=
  prep_cook_mapping.1 baseDoc 1 (by decide)

/-! ## C6: the timestamp conversion -/

/-- C6 (amended). The timestamp conversion is a total function, so it never
raises: a falsy input yields the empty string; an object whose to-date
conversion succeeds, or a valid native date, yields its ISO string; every
other truthy input, including a failing conversion, yields the original
value stringified, not the empty string. -/
theorem toISO_behavior :
    (∀ v : JsVal, truthy v = false → toISO v = "")
  ∧ (∀ iso s, toISO (.tsObj (some iso) s) = iso)
  ∧ (∀ ms iso s, toISO (.date true ms iso s) = iso)
  ∧ (∀ v : JsVal, truthy v = true →
      (∀ iso s, v ≠ .tsObj (some iso) s) →
      (∀ ms iso s, v ≠ .date true ms iso s) →
      toISO v = stringify v) := by
  refine ⟨fun v hv => ?_, fun iso s => rfl, fun ms iso s => rfl, fun v hv hts hd => ?_⟩
  · cases v <;> simp_all [truthy, toISO]
  · cases v with
    | date valid ms iso s =>
        cases valid
        · rfl
        · exact absurd rfl (hd ms iso s)
    | tsObj conv s =>
        cases conv with
        | none => rfl
        | some iso => exact absurd rfl (hts iso s)
    | num q => simp_all [truthy, toISO, stringify]
    | str s => simp_all [truthy, toISO, stringify]
    | jbool b => cases b <;> simp_all [truthy, toISO, stringify]
    | undef => simp [truthy] at hv
    | jnull => simp [truthy] at hv
    | nan => simp [truthy] at hv
    | arr es => rfl
    | obj s => rfl

/-- Counterexample for C6 as stated: the number 5 is truthy and exposes no
date conversion, and the code returns its stringification, not the empty
string the claim asserts for unrecognized truthy input. -/
theorem toISO_claim_cex :
    toISO (.num 5) = "5" ∧ ¬toISO (.num 5) = "" := by
  refine ⟨by decide, by decide⟩

/-- Witness for C6 at concrete values: null converts to the empty string
and a plain object falls back to its string view. -/
theorem toISO_behavior_witness :
    toISO .jnull = "" ∧ toISO (.obj "[object Object]") = stringify (.obj "[object Object]") :=
  ⟨toISO_behavior.1 .jnull rfl,
   toISO_behavior.2.2.2 (.obj "[object Object]") rfl (by simp) (by simp)⟩

/-! ## Supporting lemmas for the likes counter -/

/-- Keys after a bump: the bumped key joins the key list, nothing else
changes. -/
theorem bump_mem_fst (m : List (String × ℕ)) (k r : String) :
    r ∈ (bump m k).map Prod.fst ↔ r ∈ m.map Prod.fst ∨ r = k := by
  induction m with
  | nil => simp [bump]
  | cons p rest ih =>
      rcases p with ⟨k0, v⟩
      by_cases hk : k0 = k <;> simp [bump, hk, ih] <;> tauto

/-- A bump preserves positivity of all counts. -/
theorem bump_snd_pos (m : List (String × ℕ)) (k : String)
    (h : ∀ p ∈ m, 1 ≤ p.2) : ∀ p ∈ bump m k, 1 ≤ p.2 := by
  induction m with
  | nil => simp [bump]
  | cons p rest ih =>
      rcases p with ⟨k0, v⟩
      intro q hq
      by_cases hk : k0 = k <;> simp [bump, hk] at hq
      · rcases hq with hq | hq
        · rcases hq with ⟨h1, h2⟩
          omega
        · exact h q (by simp [hq])
      · rcases hq with hq | hq
        · have := h (k0, v) (by simp)
          simp [hq]
          omega
        · exact ih (fun p hp => h p (by simp [hp])) q hq

/-- A bump increments the bumped key and leaves other lookups unchanged. -/
theorem lookupCount_bump (m : List (String × ℕ)) (k r : String) :
    lookupCount (bump m k) r =
      lookupCount m r + (if r = k then 1 else 0) := by
  induction m with
  | nil =>
      by_cases hr : r = k
      · subst hr
        simp [bump, lookupCount, List.find?]
      · have hkr : (k == r) = false := beq_eq_false_iff_ne.mpr (fun h => hr h.symm)
        simp [bump, lookupCount, List.find?, hkr, hr]
  | cons p rest ih =>
      rcases p with ⟨k0, v⟩
      by_cases hk : k0 = k
      · subst hk
        by_cases hr : k0 = r
        · subst hr
          simp [bump, lookupCount, List.find?]
        · have hkr : (k0 == r) = false := beq_eq_false_iff_ne.mpr hr
          have hrk : ¬(r = k0) := fun h => hr h.symm
          simp [bump, lookupCount, List.find?, hkr, hrk]
      · by_cases hr : k0 = r
        · subst hr
          simp [bump, hk, lookupCount, List.find?]
        · have hkr : (k0 == r) = false := beq_eq_false_iff_ne.mpr hr
          have hih := ih
          simp [bump, hk, lookupCount, List.find?, hkr] at hih ⊢
          exact hih

/-- Keys of the folded likes counter: the starting keys plus the keys of
the like rows seen. -/
theorem likes_fold_mem (inters : List InteractionRow) :
    ∀ (m : List (String × ℕ)) (r : String),
      (r ∈ (inters.foldl likeStep m).map Prod.fst ↔
        r ∈ m.map Prod.fst ∨ ∃ row ∈ inters, isLike row = true ∧ ridKey row = r) := by
  induction inters with
  | nil => simp
  | cons row rest ih =>
      intro m r
      rw [List.foldl_cons, ih (likeStep m row) r]
      by_cases hl : isLike row = true
      · rw [show likeStep m row = bump m (ridKey row) from if_pos hl, bump_mem_fst]
        constructor
        · rintro ((h | h) | h)
          · exact Or.inl h
          · exact Or.inr ⟨row, by simp, hl, h.symm⟩
          · rcases h with ⟨row2, hmem, hlike, hr⟩
            exact Or.inr ⟨row2, by simp [hmem], hlike, hr⟩
        · rintro (h | ⟨row2, hmem, hlike, hr⟩)
          · exact Or.inl (Or.inl h)
          · rcases List.mem_cons.mp hmem with h0 | h0
            · subst h0
              exact Or.inl (Or.inr hr.symm)
            · exact Or.inr ⟨row2, h0, hlike, hr⟩
      · rw [show likeStep m row = m from if_neg hl]
        constructor
        · rintro (h | ⟨row2, hmem, hlike, hr⟩)
          · exact Or.inl h
          · exact Or.inr ⟨row2, by simp [hmem], hlike, hr⟩
        · rintro (h | ⟨row2, hmem, hlike, hr⟩)
          · exact Or.inl h
          · rcases List.mem_cons.mp hmem with h0 | h0
            · subst h0
              exact absurd hlike hl
            · exact Or.inr ⟨row2, h0, hlike, hr⟩

/-- All counts of the folded likes counter are positive. -/
theorem likes_fold_pos (inters : List InteractionRow) :
    ∀ (m : List (String × ℕ)), (∀ p ∈ m, 1 ≤ p.2) →
      ∀ p ∈ inters.foldl likeStep m, 1 ≤ p.2 := by
  induction inters with
  | nil => simp
  | cons row rest ih =>
      intro m hm
      refine ih (likeStep m row) ?_
      unfold likeStep
      split
      · exact bump_snd_pos m (ridKey row) hm
      · exact hm

/-- Lookup in the folded likes counter counts the matching like rows. -/
theorem likes_fold_lookup (inters : List InteractionRow) :
    ∀ (m : List (String × ℕ)) (r : String),
      lookupCount (inters.foldl likeStep m) r =
        lookupCount m r + inters.countP (fun row => isLike row && (ridKey row == r)) := by
  induction inters with
  | nil => simp
  | cons row rest ih =>
      intro m r
      rw [List.foldl_cons, ih (likeStep m row) r, List.countP_cons]
      by_cases hl : isLike row = true
      · rw [show likeStep m row = bump m (ridKey row) from if_pos hl, lookupCount_bump]
        by_cases hr : r = ridKey row
        · have hb : (ridKey row == r) = true := beq_iff_eq.mpr hr.symm
          simp [hl, hr, hb]
          omega
        · have hb : (ridKey row == r) = false :=
            beq_eq_false_iff_ne.mpr (fun h => hr h.symm)
          simp [hl, hr, hb]
      · rw [show likeStep m row = m from if_neg hl]
        simp [hl]

/-! ## C7: median-based high-engagement segmentation -/

/-- C7. The likesCount keys are exactly the recipes with at least one like
entry, each holding its positive like tally; the median like count is the
sorted-array midpoint of those tallies, averaging the two middle values
when their number is even; and a recipe qualifies as high-engagement
exactly when its like count strictly exceeds that median. On like counts
1, 3, 5, 7 the median is 4 and only the recipes with counts 5 and 7
qualify. -/
theorem median_high_engagement :
    (∀ (inters : List InteractionRow) (r : String),
      (r ∈ (likesCount inters).map Prod.fst ↔
        ∃ row ∈ inters, isLike row = true ∧ ridKey row = r))
  ∧ (∀ (inters : List InteractionRow), ∀ p ∈ likesCount inters, 1 ≤ p.2)
  ∧ (∀ (inters : List InteractionRow) (r : String),
      lookupCount (likesCount inters) r =
        inters.countP (fun row => isLike row && (ridKey row == r)))
  ∧ (∀ (inters : List InteractionRow) (r : String),
      (r ∈ highEngRecipeIds inters ↔
        ∃ c : ℕ, (r, c) ∈ likesCount inters ∧ medianLikes inters < (c : ℚ)))
  ∧ medianOf [1, 3, 5, 7] = 4
  ∧ likesCount demoInters7 = [("r1", 1), ("r2", 3), ("r3", 5), ("r4", 7)]
  ∧ medianLikes demoInters7 = 4
  ∧ highEngRecipeIds demoInters7 = ["r3", "r4"] := by
  refine ⟨?_, ?_, ?_, ?_, by decide, by decide, by decide, by decide⟩
  · intro inters r
    simpa [likesCount] using likes_fold_mem inters [] r
  · intro inters p hp
    exact likes_fold_pos inters [] (by simp) p hp
  · intro inters r
    simpa [likesCount, lookupCount] using likes_fold_lookup inters [] r
  · intro inters r
    simp only [highEngRecipeIds, List.mem_map, List.mem_filter, decide_eq_true_eq]
    constructor
    · rintro ⟨⟨a, b⟩, ⟨hp, hlt⟩, rfl⟩
      exact ⟨b, hp, hlt⟩
    · rintro ⟨c, hc, hlt⟩
      exact ⟨(r, c), ⟨hc, hlt⟩, rfl⟩

/-- Witness for C7 at the concrete interactions: the first counter entry
carries a positive tally. -/
theorem median_high_engagement_witness :
    1 ≤ (("r1", 1) : String × ℕ).2 :=
  median_high_engagement.2.1 demoInters7 ("r1", 1) (by decide)

/-! ## Supporting lemmas for the validation tallies -/

/-- Every finding a table validator emits is tagged with that table and
with a row index below the running index plus the row count. -/
theorem tableFindings_mem {α : Type} (t : Table) (rowId : α → String)
    (rowMsgs : α → List Msg) (rows : List α) :
    ∀ (i : ℕ) (f : Finding), f ∈ tableFindings t rowId rowMsgs i rows →
      f.table = t ∧ f.rowIndex < i + rows.length := by
  induction rows with
  | nil => simp [tableFindings]
  | cons r rs ih =>
      intro i f hf
      simp only [tableFindings, List.mem_append, List.mem_map] at hf
      rcases hf with ⟨m, hm, rfl⟩ | hf
      · exact ⟨rfl, by simp⟩
      · have := ih (i + 1) f hf
        exact ⟨this.1, by have := this.2; simp only [List.length_cons]; omega⟩

/-- Every finding of a run indexes a row of its own table. -/
theorem allFindings_row_lt (tb : Tables) (f : Finding) (hf : f ∈ allFindings tb) :
    f.rowIndex < totals tb f.table := by
  simp only [allFindings, List.mem_append] at hf
  rcases hf with ((h | h) | h) | h <;>
    [have := tableFindings_mem Table.recipes (fun r => orEmpty r.recipe_id)
        recipeRowMsgs tb.recipes 0 f h;
     have := tableFindings_mem Table.ingredients (fun r => orEmpty r.ingredient_id)
        ingredientRowMsgs tb.ingredients 0 f h;
     have := tableFindings_mem Table.steps (fun r => orEmpty r.step_id)
        stepRowMsgs tb.steps 0 f h;
     have := tableFindings_mem Table.interactions (fun r => orEmpty r.interaction_id)
        interactionRowMsgs tb.interactions 0 f h] <;>
    rw [this.1] <;> simpa [totals] using this.2

/-- The per-table key count of the perRowErrors map is the number of
distinct row indices of that table with at least one finding. -/
theorem invalidRowCount_eq_card (tb : Tables) (t : Table) :
    invalidRowCount tb t = (findingRows tb t).card := by
  classical
  set pairs := (allFindings tb).map (fun f => (f.table, f.rowIndex)) with hpairs
  have h1 : (pairs.dedup.filter (fun k => k.1 = t)).Nodup :=
    (pairs.nodup_dedup).filter _
  have h2 : (pairs.dedup.filter (fun k => k.1 = t)).toFinset =
      (pairs.filter (fun k => k.1 = t)).toFinset := by
    ext x
    simp [List.mem_filter, List.mem_dedup]
  have h3 : (pairs.filter (fun k => k.1 = t)).toFinset =
      (findingRows tb t).image (fun i => (t, i)) := by
    ext ⟨t2, i⟩
    simp only [List.mem_toFinset, List.mem_filter, findingRows, Finset.mem_image,
      List.mem_map, hpairs, decide_eq_true_eq]
    constructor
    · rintro ⟨⟨f, hf, hfe⟩, ht2⟩
      injection hfe with ha hb
      subst ha
      subst hb
      exact ⟨f.rowIndex, ⟨f, ⟨hf, ht2⟩, rfl⟩, by rw [ht2]⟩
    · rintro ⟨i0, ⟨f, ⟨hf, hft⟩, hfi⟩, heq⟩
      injection heq with ha hb
      subst ha
      subst hb
      exact ⟨⟨f, hf, by rw [hft, hfi]⟩, rfl⟩
  calc invalidRowCount tb t
      = (pairs.dedup.filter (fun k => k.1 = t)).length := rfl
    _ = (pairs.dedup.filter (fun k => k.1 = t)).toFinset.card :=
        (List.toFinset_card_of_nodup h1).symm
    _ = (pairs.filter (fun k => k.1 = t)).toFinset.card := by rw [h2]
    _ = ((findingRows tb t).image (fun i => (t, i))).card := by rw [h3]
    _ = (findingRows tb t).card :=
        Finset.card_image_of_injective _ (fun a b h => (Prod.mk.inj h).2)

/-- A table has no more flagged rows than rows. -/
theorem findingRows_card_le (tb : Tables) (t : Table) :
    (findingRows tb t).card ≤ totals tb t := by
  have hsub : findingRows tb t ⊆ Finset.range (totals tb t) := by
    intro i hi
    simp only [findingRows, List.mem_toFinset, List.mem_map, List.mem_filter,
      decide_eq_true_eq] at hi
    rcases hi with ⟨f, ⟨hf, hft⟩, rfl⟩
    rw [Finset.mem_range, ← hft]
    exact allFindings_row_lt tb f hf
  simpa using Finset.card_le_card hsub

/-! ## C2: the valid and invalid tallies -/

/-- C2. For every run and every table, the reported valid_count plus the
number of distinct row indices of that table having at least one finding
equals the total row count, valid_count is never negative, and the global
invalid_count is the number of distinct table-and-row-index pairs with
findings across all four tables. -/
theorem validation_count_identities (tb : Tables) (t : Table) :
    validCount tb t + ((findingRows tb t).card : ℤ) = (totals tb t : ℤ)
  ∧ 0 ≤ validCount tb t
  ∧ invalidCount tb =
      ((allFindings tb).map (fun f => (f.table, f.rowIndex))).toFinset.card := by
  have h1 := invalidRowCount_eq_card tb t
  have h2 := findingRows_card_le tb t
  refine ⟨?_, ?_, ?_⟩
  · have h0 : (0:ℤ) ≤ (totals tb t : ℤ) - ((findingRows tb t).card : ℤ) := by omega
    rw [validCount, h1, max_eq_right h0]
    ring
  · rw [validCount]
    exact le_max_left 0 _
  · rw [invalidCount, perRowKeys, List.card_toFinset]

/-! ## Supporting lemmas for the correlation -/

/-- The squared-deviation sum of a series is nonnegative. -/
theorem pearsonDen_nonneg (xs : List ℚ) : 0 ≤ pearsonDen xs := by
  apply List.sum_nonneg
  intro x hx
  rcases List.mem_map.mp hx with ⟨v, hv, rfl⟩
  positivity

/-- The pearson function of the code agrees everywhere with the population
formula of the spec. -/
theorem pearson_eq_pearsonSpec (xs ys : List ℚ) : pearson xs ys = pearsonSpec xs ys := by
  unfold pearson pearsonSpec
  split_ifs with hg hd hd2 hd2
  · rfl
  · rfl
  · exfalso
    apply hd2
    rcases hd with h | h
    · exact Or.inl (by simp [popVar, h])
    · exact Or.inr (by simp [popVar, h])
  · exfalso
    apply hd
    have hxs : ¬(xs.isEmpty = true) ∧ xs.length = ys.length := by
      constructor
      · intro hx
        exact hg (Or.inl hx)
      · by_contra hx
        exact hg (Or.inr hx)
    have hlen : 0 < xs.length :=
      List.length_pos.mpr (fun he => hxs.1 (by simp [he]))
    have hnq : (xs.length : ℚ) ≠ 0 := by
      exact_mod_cast Nat.pos_iff_ne_zero.mp hlen
    have hnq2 : (ys.length : ℚ) ≠ 0 := by
      rw [← hxs.2]
      exact hnq
    rcases hd2 with h | h
    · rcases (div_eq_zero_iff).mp h with h0 | h0
      · exact Or.inl h0
      · exact absurd h0 hnq
    · rcases (div_eq_zero_iff).mp h with h0 | h0
      · exact Or.inr h0
      · exact absurd h0 hnq2
  · have hxs : ¬(xs.isEmpty = true) ∧ xs.length = ys.length := by
      constructor
      · intro hx
        exact hg (Or.inl hx)
      · by_contra hx
        exact hg (Or.inr hx)
    have hlen : 0 < xs.length :=
      List.length_pos.mpr (fun he => hxs.1 (by simp [he]))
    rcases not_or.mp hd with ⟨h1, h2⟩
    have hdX : (0:ℝ) < (pearsonDen xs : ℝ) := by
      have hle := pearsonDen_nonneg xs
      have : (0:ℚ) < pearsonDen xs := lt_of_le_of_ne hle (Ne.symm h1)
      exact_mod_cast this
    have hdY : (0:ℝ) < (pearsonDen ys : ℝ) := by
      have hle := pearsonDen_nonneg ys
      have : (0:ℚ) < pearsonDen ys := lt_of_le_of_ne hle (Ne.symm h2)
      exact_mod_cast this
    have hn0 : (0:ℝ) < (xs.length : ℝ) := by exact_mod_cast hlen
    rw [popCov, popSd, popSd, popVar, popVar, ← hxs.2]
    push_cast
    have hkey : Real.sqrt ((pearsonDen xs : ℝ) / (xs.length : ℝ)) *
        Real.sqrt ((pearsonDen ys : ℝ) / (xs.length : ℝ)) =
        Real.sqrt ((pearsonDen xs : ℝ) * (pearsonDen ys : ℝ)) / (xs.length : ℝ) := by
      rw [← Real.sqrt_mul (by positivity)]
      rw [show (pearsonDen xs : ℝ) / (xs.length : ℝ) * ((pearsonDen ys : ℝ) / (xs.length : ℝ)) =
            ((pearsonDen xs : ℝ) * (pearsonDen ys : ℝ)) / ((xs.length : ℝ) * (xs.length : ℝ)) by
          ring]
      rw [Real.sqrt_div (by positivity), Real.sqrt_mul_self (le_of_lt hn0)]
    rw [hkey]
    have hs0 : Real.sqrt ((pearsonDen xs : ℝ) * (pearsonDen ys : ℝ)) ≠ 0 := by
      positivity
    field_simp

/-- Pearson on the series 10, 20 against 2, 4 is exactly 1. -/
theorem pearson_example : pearson [10, 20] [2, 4] = 1 := by
  have hnum : pearsonNum [10, 20] [2, 4] = 10 := by
    simp [pearsonNum, qmean]
    norm_num
  have hdx : pearsonDen ([10, 20] : List ℚ) = 50 := by
    simp [pearsonDen, qmean]
    norm_num
  have hdy : pearsonDen ([2, 4] : List ℚ) = 2 := by
    simp [pearsonDen, qmean]
    norm_num
  unfold pearson
  split_ifs with h1 h2
  · rcases h1 with h | h <;> simp at h
  · rw [hdx] at h2
    rw [hdy] at h2
    rcases h2 with h | h <;> norm_num at h
  · rw [hnum, hdx, hdy]
    push_cast
    rw [show ((50:ℝ) * 2) = 10 ^ 2 by norm_num,
      Real.sqrt_sq (by norm_num : (0:ℝ) ≤ 10)]
    norm_num

/-! ## C8: the correlation between prep time and likes -/

/-- C8. The Pearson correlation between the prep-time series and the
like-count series follows the population formula, covariance over the
product of the standard deviations; it returns 0 whenever either series
has zero squared-deviation sum or the series are empty or of mismatched
length; and for two recipes with prep 10 and 20 and like counts 2 and 4
it returns exactly 1. -/
theorem pearson_population_and_example :
    (∀ xs ys : List ℚ, pearson xs ys = pearsonSpec xs ys)
  ∧ (∀ xs ys : List ℚ,
      xs.isEmpty = true ∨ xs.length ≠ ys.length ∨ pearsonDen xs = 0 ∨ pearsonDen ys = 0 →
      pearson xs ys = 0)
  ∧ prepVector demoRecipesCorr = [10, 20]
  ∧ likeVector demoRecipesCorr demoIntersCorr = [2, 4]
  ∧ prepLikesCorr demoRecipesCorr demoIntersCorr = 1 := by
  have h3 : prepVector demoRecipesCorr = [10, 20] := by decide
  have h4 : likeVector demoRecipesCorr demoIntersCorr = [2, 4] := by decide
  refine ⟨pearson_eq_pearsonSpec, ?_, h3, h4, ?_⟩
  · intro xs ys h
    unfold pearson
    split_ifs with h1 h2
    · rfl
    · rfl
    · exfalso
      rcases h with h | h | h | h
      · exact h1 (Or.inl h)
      · exact h1 (Or.inr h)
      · exact h2 (Or.inl h)
      · exact h2 (Or.inr h)
  · rw [prepLikesCorr, h3, h4, pearson_example]

/-- Witness for C8 at the empty series: the degenerate guard yields 0. -/
theorem pearson_population_witness : pearson ([] : List ℚ) ([] : List ℚ) = 0 :=
  pearson_population_and_example.2.1 [] [] (Or.inl rfl)

end Foodie
